import Mathlib

/-!
Verification development for the `angular-custom-tooltip-and-walkthrough`
repository.

The development shallowly embeds the two source files:

* `src/app/directives/overlay-position-base.directive.ts` — the tooltip
  position resolver (`_getOrigin`, `_getOverlayPosition`, `_invertPosition`);
* the walkthrough module — the `AppWalkthroughStore` state container, the
  `TakeTheTourStore` toggle stream, the step-position heuristic
  (`_positionHandHolderStep`) and the scroll-end debouncer (`onScrollStop`).

Effectful TypeScript methods are embedded as pure functions: reads of
`this.`-fields become explicit arguments, store mutations become explicit
state passing over `AppWalkthroughState`, thrown exceptions become
`Except`, and DOM/scroll side effects are reified as returned command
values.  JavaScript numbers are modelled as `Rat`.
-/

/-! ## Position resolver (`overlay-position-base.directive.ts`) -/

/-- `HorizontalConnectionPos` of the overlay engine: `'start' | 'center' | 'end'`. -/
inductive HorizontalConnectionPos
  | start
  | center
  | end_
deriving DecidableEq

/-- `VerticalConnectionPos` of the overlay engine: `'top' | 'center' | 'bottom'`. -/
inductive VerticalConnectionPos
  | top
  | center
  | bottom
deriving DecidableEq

/-- `OriginConnectionPosition`: the anchor corner on the target element. -/
structure OriginConnectionPosition where
  originX : HorizontalConnectionPos
  originY : VerticalConnectionPos
deriving DecidableEq

/-- `OverlayConnectionPosition`: the anchor corner on the tooltip overlay. -/
structure OverlayConnectionPosition where
  overlayX : HorizontalConnectionPos
  overlayY : VerticalConnectionPos
deriving DecidableEq

/-- The `OverlayTipPosition` union type:
`'left' | 'right' | 'above' | 'below' | 'before' | 'after'`. -/
inductive OverlayTipPosition
  | left
  | right
  | above
  | below
  | before
  | after
deriving DecidableEq

/-- The string literal each `OverlayTipPosition` member stands for.  The
directive fields hold these strings; the resolver compares them with `==`. -/
def posStr : OverlayTipPosition → String
  | .left => "left"
  | .right => "right"
  | .above => "above"
  | .below => "below"
  | .before => "before"
  | .after => "after"

/-- Runtime failures of the resolver:
`invalidTipPosition` models `throw throwInvalidTutorialTipPosition()`;
`typeErrorUndefined` models the `TypeError` raised by evaluating
`originPosition!.originX` (resp. `overlayPosition!.overlayX`) when the
variable was never assigned (production build, invalid literal). -/
inductive PosError
  | invalidTipPosition
  | typeErrorUndefined
deriving DecidableEq

/-- `_invertPosition(x, y)`: inverts an overlay position.  Reads
`this._tipPosition` (passed here as the `tipPosition` string). -/
def _invertPosition (tipPosition : String) (x : HorizontalConnectionPos)
    (y : VerticalConnectionPos) :
    HorizontalConnectionPos × VerticalConnectionPos :=
  if tipPosition = "above" ∨ tipPosition = "below" then
    (x, if y = .top then .bottom else if y = .bottom then .top else y)
  else
    (if x = .end_ then .start else if x = .start then .end_ else x, y)

/-- `_getOrigin()`: origin position and fallback.  `production` models
`environment.production`; `isLtr` models `!this._dir || this._dir.value == 'ltr'`;
`position` models `this._tipPosition`. -/
def _getOrigin (production : Bool) (isLtr : Bool) (position : String) :
    Except PosError (OriginConnectionPosition × OriginConnectionPosition) :=
  let originPosition? : Option OriginConnectionPosition :=
    if position = "above" ∨ position = "below" then
      some { originX := .center
             originY := if position = "above" then .top else .bottom }
    else if position = "before" ∨ (position = "left" ∧ isLtr = true) ∨
        (position = "right" ∧ isLtr = false) then
      some { originX := .start, originY := .center }
    else if position = "after" ∨ (position = "right" ∧ isLtr = true) ∨
        (position = "left" ∧ isLtr = false) then
      some { originX := .end_, originY := .center }
    else
      none
  match originPosition? with
  | some originPosition =>
      let xy := _invertPosition position originPosition.originX originPosition.originY
      .ok (originPosition, { originX := xy.1, originY := xy.2 })
  | none =>
      if ¬ production = true then .error .invalidTipPosition
      else .error .typeErrorUndefined

/-- `_getOverlayPosition()`: overlay position and fallback. -/
def _getOverlayPosition (production : Bool) (isLtr : Bool) (position : String) :
    Except PosError (OverlayConnectionPosition × OverlayConnectionPosition) :=
  let overlayPosition? : Option OverlayConnectionPosition :=
    if position = "above" then
      some { overlayX := .center, overlayY := .bottom }
    else if position = "below" then
      some { overlayX := .center, overlayY := .top }
    else if position = "before" ∨ (position = "left" ∧ isLtr = true) ∨
        (position = "right" ∧ isLtr = false) then
      some { overlayX := .end_, overlayY := .center }
    else if position = "after" ∨ (position = "right" ∧ isLtr = true) ∨
        (position = "left" ∧ isLtr = false) then
      some { overlayX := .start, overlayY := .center }
    else
      none
  match overlayPosition? with
  | some overlayPosition =>
      let xy := _invertPosition position overlayPosition.overlayX overlayPosition.overlayY
      .ok (overlayPosition, { overlayX := xy.1, overlayY := xy.2 })
  | none =>
      if ¬ production = true then .error .invalidTipPosition
      else .error .typeErrorUndefined

/-- Stated from the spec: flipping the vertical corners (top/bottom). -/
def specVerticalFlip : VerticalConnectionPos → VerticalConnectionPos
  | .top => .bottom
  | .bottom => .top
  | .center => .center

/-- Stated from the spec: flipping the horizontal corners (start/end). -/
def specHorizontalFlip : HorizontalConnectionPos → HorizontalConnectionPos
  | .start => .end_
  | .end_ => .start
  | .center => .center

/-- C1: for every valid side value and every text direction the resolver
returns a primary anchor pair plus a fallback pair that is the geometric
inverse of the primary on the relevant axis: for `above`/`below` the
vertical corners are flipped and the horizontal component is unchanged;
for `left`/`right`/`before`/`after` the horizontal corners are flipped and
the vertical component is unchanged. -/
theorem c1_fallback_is_axis_inverse (production isLtr : Bool) (p : OverlayTipPosition) :
    ∃ org ovl,
      _getOrigin production isLtr (posStr p) = .ok org ∧
      _getOverlayPosition production isLtr (posStr p) = .ok ovl ∧
      (if p = .above ∨ p = .below then
          org.2.originY = specVerticalFlip org.1.originY ∧
          org.2.originX = org.1.originX ∧
          ovl.2.overlayY = specVerticalFlip ovl.1.overlayY ∧
          ovl.2.overlayX = ovl.1.overlayX
        else
          org.2.originX = specHorizontalFlip org.1.originX ∧
          org.2.originY = org.1.originY ∧
          ovl.2.overlayX = specHorizontalFlip ovl.1.overlayX ∧
          ovl.2.overlayY = ovl.1.overlayY) := by
  cases production <;> cases isLtr <;> cases p <;>
    exact ⟨_, _, rfl, rfl, by decide⟩

/-- C2 counterexample: in a production build an invalid side value is not
silently ignored — the resolver still fails, with the type error raised by
dereferencing the never-assigned position variable. -/
theorem c2_counterexample :
    _getOrigin true true "diagonal" = .error .typeErrorUndefined ∧
    _getOverlayPosition true true "diagonal" = .error .typeErrorUndefined :=
  ⟨rfl, rfl⟩

/-- C2 (amended): for every side value outside the six recognized literals
the resolver fails synchronously in every build: outside production it
throws the descriptive invalid-position error; in production the guarded
throw is skipped but dereferencing the undefined position variable raises a
type error, so the call never completes without an error. -/
theorem c2_invalid_position_always_errors (production isLtr : Bool) (position : String)
    (hinv : ¬(position = "above" ∨ position = "below" ∨ position = "before" ∨
        position = "after" ∨ position = "left" ∨ position = "right")) :
    _getOrigin production isLtr position =
        .error (if production then .typeErrorUndefined else .invalidTipPosition) ∧
    _getOverlayPosition production isLtr position =
        .error (if production then .typeErrorUndefined else .invalidTipPosition) := by
  push_neg at hinv
  obtain ⟨h1, h2, h3, h4, h5, h6⟩ := hinv
  cases production <;>
    simp [_getOrigin, _getOverlayPosition, h1, h2, h3, h4, h5, h6]

/-- C2 witness: the amended claim at a concrete invalid literal in a
non-production build. -/
theorem c2_witness :
    _getOrigin false true "diag" = .error .invalidTipPosition ∧
    _getOverlayPosition false true "diag" = .error .invalidTipPosition := by
  have h := c2_invalid_position_always_errors false true "diag" (by decide)
  simpa using h

/-! ## Step heuristic (`HandHolderBaseDirective`) -/

/-- `HAND_HOLDER_STEP_MAX_HEIGHT = 532`. -/
def HAND_HOLDER_STEP_MAX_HEIGHT : Rat := 532

/-- `HAND_HOLDER_STEP_MAX_WIDTH = 350`. -/
def HAND_HOLDER_STEP_MAX_WIDTH : Rat := 350

/-- `_isTipFitVertically(viewportHeight, elHeight)`. -/
def _isTipFitVertically (viewportHeight elHeight : Rat) : Bool :=
  elHeight < viewportHeight - HAND_HOLDER_STEP_MAX_HEIGHT

/-- The scroll side effects `_positionHandHolderStep` can request, reified:
`toHookedElemFullway offset` is `_scrollToHookedElement('fullway', offset)`,
`toHookedElemHalfway` is `_scrollToHookedElement('halfway')`, and
`verticallyBy amount` is `_scrollVerticallyBy(amount)`. -/
inductive ScrollCommand
  | toHookedElemFullway (offset : Rat)
  | toHookedElemHalfway
  | verticallyBy (amount : Rat)
deriving DecidableEq

/-- The observable outcome of one `_positionHandHolderStep()` invocation:
`newPos` is the argument of the `_makePosition` call, if one was made, and
`scroll` is the scroll command issued, if any. -/
structure StepOutcome where
  newPos : Option OverlayTipPosition
  scroll : Option ScrollCommand
deriving DecidableEq

/-- `_positionHandHolderStep()`.  Field reads become arguments:
`tipPosition` is `this._tipPosition`; `vieportWidth`/`viewportHeight` come
from `viewportRuler.getViewportRect()`; `x`, `y`, `hookedElWidth`,
`hookedElHeight` come from `this._hookedEl.getBoundingClientRect()`;
`scrollTop` is `this._main.scrollTop`.  The regex tests
`/(left|before|right|after)/`, `/(left|before)/` and `/(right|after)/`
become the corresponding disjunctions over the six position literals. -/
def _positionHandHolderStep (tipPosition : OverlayTipPosition)
    (vieportWidth viewportHeight x y hookedElWidth hookedElHeight scrollTop : Rat) :
    StepOutcome :=
  let halfViewportWidth := vieportWidth / 2
  let deltaWidth := vieportWidth - hookedElWidth
  if deltaWidth < HAND_HOLDER_STEP_MAX_HEIGHT then
    if tipPosition = .above then
      if y ≥ HAND_HOLDER_STEP_MAX_HEIGHT then
        { newPos := none, scroll := some .toHookedElemHalfway }
      else if |y| ≥ 260 ∧ scrollTop ≥ 260 then
        if _isTipFitVertically viewportHeight hookedElHeight then
          { newPos := none, scroll := some (.verticallyBy (scrollTop - 100)) }
        else
          { newPos := none, scroll := some (.verticallyBy (scrollTop - 260)) }
      else { newPos := none, scroll := none }
    else if tipPosition = .below then
      if _isTipFitVertically viewportHeight hookedElHeight then
        { newPos := none, scroll := some (.toHookedElemFullway 0) }
      else
        { newPos := none, scroll := some (.verticallyBy (scrollTop + y)) }
    else
      if y ≥ HAND_HOLDER_STEP_MAX_HEIGHT then
        { newPos := some .above, scroll := some .toHookedElemHalfway }
      else if y ≤ -260 ∧ scrollTop ≥ 260 then
        { newPos := some .above, scroll := some (.toHookedElemFullway (-160)) }
      else { newPos := none, scroll := none }
  else if tipPosition = .above then
    if _isTipFitVertically viewportHeight hookedElHeight then
      if y ≥ HAND_HOLDER_STEP_MAX_HEIGHT then
        { newPos := none, scroll := some (.toHookedElemFullway 0) }
      else
        { newPos := some .below, scroll := none }
    else { newPos := none, scroll := none }
  else if x < halfViewportWidth ∧ x < HAND_HOLDER_STEP_MAX_WIDTH ∧
      (tipPosition = .left ∨ tipPosition = .before) then
    { newPos := some .right, scroll := some (.toHookedElemFullway 0) }
  else if x > halfViewportWidth ∧ x < vieportWidth - HAND_HOLDER_STEP_MAX_WIDTH ∧
      (tipPosition = .right ∨ tipPosition = .after) then
    { newPos := some .left, scroll := some (.toHookedElemFullway 0) }
  else
    { newPos := none, scroll := some (.toHookedElemFullway 0) }

/-- C4: the vertical-fit predicate holds exactly when the hooked element's
height is strictly less than the viewport height minus the fixed tooltip
height constant of 532 pixels. -/
theorem c4_vertical_fit_characterization (viewportHeight elHeight : Rat) :
    _isTipFitVertically viewportHeight elHeight = true ↔
      elHeight < viewportHeight - 532 := by
  simp [_isTipFitVertically, HAND_HOLDER_STEP_MAX_HEIGHT]

/-- C3 counterexample: one invocation of the step heuristic can both change
the side and scroll — with the side requested as `left`, an element almost
as wide as the viewport and positioned 600px down, the heuristic overrides
the side to `above` and scrolls the container halfway. -/
theorem c3_counterexample :
    (_positionHandHolderStep .left 800 600 0 600 700 50 0).newPos =
        some .above ∧
    (_positionHandHolderStep .left 800 600 0 600 700 50 0).scroll =
        some .toHookedElemHalfway := by
  constructor <;>
    · norm_num [_positionHandHolderStep, HAND_HOLDER_STEP_MAX_HEIGHT]
      rfl

/-- C3 (amended): every invocation of the step heuristic yields one of:
the requested side kept (with or without a scroll), the side flipped to
`below` with no scroll, or the side overridden to `above`, `left` or
`right` always together with a scroll; in particular a side change and a
scroll can co-occur, but a flip to `below` never scrolls. -/
theorem c3_step_outcomes (tipPosition : OverlayTipPosition)
    (vieportWidth viewportHeight x y hookedElWidth hookedElHeight scrollTop : Rat) :
    (_positionHandHolderStep tipPosition vieportWidth viewportHeight x y
        hookedElWidth hookedElHeight scrollTop).newPos = none ∨
    ((_positionHandHolderStep tipPosition vieportWidth viewportHeight x y
        hookedElWidth hookedElHeight scrollTop).newPos = some .below ∧
      (_positionHandHolderStep tipPosition vieportWidth viewportHeight x y
        hookedElWidth hookedElHeight scrollTop).scroll = none) ∨
    (((_positionHandHolderStep tipPosition vieportWidth viewportHeight x y
        hookedElWidth hookedElHeight scrollTop).newPos = some .above ∨
      (_positionHandHolderStep tipPosition vieportWidth viewportHeight x y
        hookedElWidth hookedElHeight scrollTop).newPos = some .left ∨
      (_positionHandHolderStep tipPosition vieportWidth viewportHeight x y
        hookedElWidth hookedElHeight scrollTop).newPos = some .right) ∧
      (_positionHandHolderStep tipPosition vieportWidth viewportHeight x y
        hookedElWidth hookedElHeight scrollTop).scroll ≠ none) := by
  simp only [_positionHandHolderStep]
  split_ifs <;> simp

/-! ## Walkthrough store (`AppWalkthroughStore`) -/

/-- One entry of `HandHoldersPositions`: `{ position, step }`. -/
structure PosEntry where
  position : OverlayTipPosition
  step : Nat
deriving DecidableEq

/-- `HandHoldersPositions`: the per-element position-override object, keyed
by the hand holder label.  JavaScript objects are modelled as association
lists without duplicate keys. -/
abbrev HandHoldersPositions := List (String × PosEntry)

/-- `TutorialTooltipStep`: `{ title, exempt }`. -/
structure TutorialTooltipStep where
  title : String
  exempt : String
deriving DecidableEq

/-- Property lookup on a JavaScript object modelled as an association list. -/
def objLookup {κ α : Type} [DecidableEq κ] : List (κ × α) → κ → Option α
  | [], _ => none
  | p :: rest, k => if p.1 = k then some p.2 else objLookup rest k

/-- Property update `{...m, [k]: v}` on a JavaScript object modelled as an
association list: replaces the entry in place if the key exists, otherwise
appends it. -/
def objSet {κ α : Type} [DecidableEq κ] : List (κ × α) → κ → α → List (κ × α)
  | [], k, v => [(k, v)]
  | p :: rest, k, v => if p.1 = k then (k, v) :: rest else p :: objSet rest k v

/-- The `Object.keys(...).reduce` in `_resetHandHolderPosition` that rebuilds
the override object skipping one key. -/
def removeKey {α : Type} (m : List (String × α)) (key : String) : List (String × α) :=
  m.filter (fun p => decide ¬(p.1 = key))

theorem objLookup_objSet {κ α : Type} [DecidableEq κ]
    (m : List (κ × α)) (k k' : κ) (v : α) :
    objLookup (objSet m k v) k' = if k' = k then some v else objLookup m k' := by
  induction m with
  | nil =>
      by_cases h : k' = k
      · subst h; simp [objSet, objLookup]
      · have h2 : ¬ k = k' := fun hh => h hh.symm
        simp [objSet, objLookup, h, h2]
  | cons p rest ih =>
      by_cases h1 : p.1 = k
      · subst h1
        by_cases h2 : k' = p.1
        · subst h2; simp [objSet, objLookup]
        · have h3 : ¬ p.1 = k' := fun hh => h2 hh.symm
          simp [objSet, objLookup, h2, h3]
      · by_cases h2 : p.1 = k'
        · have h3 : ¬ k' = k := fun hh => h1 (h2.trans hh)
          simp [objSet, objLookup, h1, h2, h3, ih]
        · simp [objSet, objLookup, h1, h2, ih]

theorem objLookup_removeKey {α : Type} (m : List (String × α)) (key : String) :
    objLookup (removeKey m key) key = none := by
  induction m with
  | nil => rfl
  | cons p rest ih =>
      by_cases h : p.1 = key
      · simpa [removeKey, List.filter_cons, h] using ih
      · simpa [removeKey, List.filter_cons, h, objLookup] using ih

/-- The mutable state of `AppWalkthroughStore` (`BehaviorSubject` values and
plain private fields).  `Option` models fields that can be `null`/never
assigned. -/
structure AppWalkthroughState where
  handHolderTooltipsPage : String
  handHolderTooltips : Option (List (String × TutorialTooltipStep))
  currentStep : Nat
  currentGroup : Option (List (Nat × String))
  allSteps : Nat
  prevHandHolderPosition : Option HandHoldersPositions
deriving DecidableEq

/-- The state-mutating entry points of `AppWalkthroughStore` (its setters,
`incrementStep`, `killTutorial` and `ngOnDestroy`). -/
inductive StoreAction
  | setHandHolderTooltipPage (page : String)
  | setHandHolderTooltips (tips : List (String × TutorialTooltipStep))
  | setCurrentGroup (group : List (Nat × String))
  | setAllSteps (steps : Nat)
  | setPrevHandHolderStepPos (pos : OverlayTipPosition) (step : Nat) (key : String)
  | resetHandHoldersPos (newPos : HandHoldersPositions)
  | incrementStep
  | killTutorial
  | ngOnDestroy
deriving DecidableEq

/-- The state transition each `AppWalkthroughStore` entry point performs.
Observable-lifecycle effects (`_until$`, subscription teardown) carry no
store state and are not part of the transition. -/
def applyAction (s : AppWalkthroughState) : StoreAction → AppWalkthroughState
  | .setHandHolderTooltipPage page => { s with handHolderTooltipsPage := page }
  | .setHandHolderTooltips tips => { s with handHolderTooltips := some tips }
  | .setCurrentGroup group =>
      { s with
          currentGroup := some (group.foldl (fun acc p => objSet acc p.1 p.2)
            (s.currentGroup.getD [])) }
  | .setAllSteps steps => { s with allSteps := steps }
  | .setPrevHandHolderStepPos pos step key =>
      if s.currentStep = step then
        { s with
            prevHandHolderPosition := some (objSet (s.prevHandHolderPosition.getD [])
              key ⟨pos, step⟩) }
      else s
  | .resetHandHoldersPos newPos => { s with prevHandHolderPosition := some newPos }
  | .incrementStep => { s with currentStep := s.currentStep + 1 }
  | .killTutorial => { s with currentStep := 0, handHolderTooltips := none }
  | .ngOnDestroy => { s with allSteps := 0, currentGroup := none }

/-- Lookup of a hand holder's override entry in the store
(`prevHandHolderPosition()[key]`, `undefined` when the field was never
assigned). -/
def storePrevLookup (s : AppWalkthroughState) (k : String) : Option PosEntry :=
  match s.prevHandHolderPosition with
  | none => none
  | some m => objLookup m k

/-- `_setLastStep()` of `HandHolderBaseDirective`: field reads become the
`isLastStep` / `handHolderStep` arguments. -/
def _setLastStep (isLastStep : Bool) (handHolderStep : Nat)
    (s : AppWalkthroughState) : AppWalkthroughState :=
  if isLastStep then applyAction s (.setAllSteps (handHolderStep + 1)) else s

/-- `_makePosition(pos)` of `HandHolderBaseDirective`: records the current
position in the store (unless the hooked element appears in a group) and
overwrites `_tipPosition` with `pos`.  Returns the new `_tipPosition`
together with the new store state. -/
def _makePosition (appearsInGroup : Option String) (tipPosition : OverlayTipPosition)
    (handHolderStep : Nat) (handHolder : String) (s : AppWalkthroughState)
    (pos : OverlayTipPosition) : OverlayTipPosition × AppWalkthroughState :=
  let s' :=
    if appearsInGroup = none then
      applyAction s (.setPrevHandHolderStepPos tipPosition handHolderStep handHolder)
    else s
  (pos, s')

/-- `_resetHandHolderPosition()` of `HandHolderBaseDirective`.  Returns the
new `_tipPosition` together with the new store state.  The guard
`!Object.keys(_currPosTip).length` can never hold for an entry of shape
`{ position, step }`, so it has no branch here. -/
def _resetHandHolderPosition (handHolder : String) (handHolderStep : Nat)
    (tipPosition : OverlayTipPosition) (s : AppWalkthroughState) :
    OverlayTipPosition × AppWalkthroughState :=
  match s.prevHandHolderPosition with
  | none => (tipPosition, s)
  | some prevPos =>
      if prevPos.length = 0 then (tipPosition, s)
      else
        match objLookup prevPos handHolder with
        | none => (tipPosition, s)
        | some currPosTip =>
            let tip :=
              if handHolderStep = currPosTip.step then currPosTip.position
              else tipPosition
            (tip, applyAction s (.resetHandHoldersPos (removeKey prevPos handHolder)))

/-- C6: one `incrementStep` raises the current step by exactly one, and no
other store entry point changes the current step, except `killTutorial`
which resets it to 0. -/
theorem c6_increment_step_semantics (s : AppWalkthroughState) :
    (applyAction s .incrementStep).currentStep = s.currentStep + 1 ∧
    ∀ a : StoreAction, a ≠ .incrementStep →
      (applyAction s a).currentStep = s.currentStep ∨
      (a = .killTutorial ∧ (applyAction s a).currentStep = 0) := by
  refine ⟨rfl, ?_⟩
  intro a ha
  cases a <;> first
    | exact absurd rfl ha
    | (simp [applyAction]; done)
    | (simp only [applyAction]; split <;> simp)

/-- C6 witness: the step semantics at a concrete store state, for
`incrementStep` and for the excepted `killTutorial` action. -/
theorem c6_witness :
    (applyAction ⟨"HomePage", none, 3, none, 0, none⟩ .incrementStep).currentStep =
        (⟨"HomePage", none, 3, none, 0, none⟩ : AppWalkthroughState).currentStep + 1 ∧
    ((applyAction ⟨"HomePage", none, 3, none, 0, none⟩ .killTutorial).currentStep =
        (⟨"HomePage", none, 3, none, 0, none⟩ : AppWalkthroughState).currentStep ∨
      (StoreAction.killTutorial = .killTutorial ∧
        (applyAction ⟨"HomePage", none, 3, none, 0, none⟩ .killTutorial).currentStep = 0)) :=
  ⟨(c6_increment_step_semantics ⟨"HomePage", none, 3, none, 0, none⟩).1,
    (c6_increment_step_semantics ⟨"HomePage", none, 3, none, 0, none⟩).2
      .killTutorial (by decide)⟩

/-- C7: when a directive registers its step through `_setLastStep` with the
last-step flag set, the store's total step count becomes that step's
ordinal plus one; with the flag unset `_setLastStep` changes nothing. -/
theorem c7_all_steps_from_last_step (isLastStep : Bool) (handHolderStep : Nat)
    (s : AppWalkthroughState) :
    (_setLastStep isLastStep handHolderStep s).allSteps =
        (if isLastStep then handHolderStep + 1 else s.allSteps) ∧
    _setLastStep false handHolderStep s = s := by
  cases isLastStep <;> simp [_setLastStep, applyAction]

/-- C10: `setPrevHandHolderStepPos` never touches any store field other than
the override map; when the step argument differs from the current step the
whole state is unchanged, and when it matches, only the given key's entry
in the override map is set (to the given position and step) while every
other key's entry is unchanged. -/
theorem c10_set_prev_pos_frame (pos : OverlayTipPosition) (step : Nat) (key : String)
    (s : AppWalkthroughState) :
    (applyAction s (.setPrevHandHolderStepPos pos step key)).currentStep = s.currentStep ∧
    (applyAction s (.setPrevHandHolderStepPos pos step key)).allSteps = s.allSteps ∧
    (applyAction s (.setPrevHandHolderStepPos pos step key)).handHolderTooltipsPage =
        s.handHolderTooltipsPage ∧
    (applyAction s (.setPrevHandHolderStepPos pos step key)).handHolderTooltips =
        s.handHolderTooltips ∧
    (applyAction s (.setPrevHandHolderStepPos pos step key)).currentGroup = s.currentGroup ∧
    (s.currentStep = step ∨ applyAction s (.setPrevHandHolderStepPos pos step key) = s) ∧
    ∀ k : String,
      objLookup
          ((applyAction s (.setPrevHandHolderStepPos pos step key)).prevHandHolderPosition.getD [])
          k =
        (if s.currentStep = step then
          (if k = key then some ⟨pos, step⟩
            else objLookup (s.prevHandHolderPosition.getD []) k)
          else objLookup (s.prevHandHolderPosition.getD []) k) := by
  by_cases h : s.currentStep = step <;>
    simp [applyAction, h, objLookup_objSet]

/-- C5: a position override is recorded by `_makePosition` only when the
hooked element does not appear in a group, and an override consumed by
`_resetHandHolderPosition` (applied because its recorded step matches) is
removed from the override map in the same operation, leaving no override
for that element. -/
theorem c5_override_record_and_consume (appearsInGroup : Option String)
    (tipPosition pos : OverlayTipPosition) (handHolderStep : Nat)
    (handHolder : String) (s : AppWalkthroughState) (e : PosEntry) :
    (appearsInGroup ≠ none →
      (_makePosition appearsInGroup tipPosition handHolderStep handHolder s pos).2 = s) ∧
    (storePrevLookup s handHolder = some e → handHolderStep = e.step →
      (_resetHandHolderPosition handHolder handHolderStep tipPosition s).1 = e.position ∧
      storePrevLookup
          (_resetHandHolderPosition handHolder handHolderStep tipPosition s).2
          handHolder = none) := by
  constructor
  · intro hg
    cases appearsInGroup with
    | none => exact absurd rfl hg
    | some g => rfl
  · intro hlook hstep
    cases hprev : s.prevHandHolderPosition with
    | none => simp [storePrevLookup, hprev] at hlook
    | some prevPos =>
        simp only [storePrevLookup, hprev] at hlook
        have hne : ¬ prevPos.length = 0 := by
          intro hlen
          rw [List.length_eq_zero.mp hlen] at hlook
          simp [objLookup] at hlook
        constructor
        · simp [_resetHandHolderPosition, hprev, hne, hlook, hstep]
        · simp [_resetHandHolderPosition, hprev, hne, hlook, storePrevLookup,
            applyAction, objLookup_removeKey]

/-- C5 witness: at a store holding an override for element `"a"` recorded at
step 2, a grouped `_makePosition` leaves the store unchanged, and consuming
the override applies its position and clears the entry. -/
theorem c5_witness :
    (_makePosition (some "grp") .below 2 "a"
        ⟨"HomePage", none, 2, none, 5, some [("a", ⟨.left, 2⟩)]⟩ .above).2 =
      ⟨"HomePage", none, 2, none, 5, some [("a", ⟨.left, 2⟩)]⟩ ∧
    ((_resetHandHolderPosition "a" 2 .below
        ⟨"HomePage", none, 2, none, 5, some [("a", ⟨.left, 2⟩)]⟩).1 =
        OverlayTipPosition.left ∧
      storePrevLookup
          (_resetHandHolderPosition "a" 2 .below
            ⟨"HomePage", none, 2, none, 5, some [("a", ⟨.left, 2⟩)]⟩).2
          "a" = none) :=
  ⟨(c5_override_record_and_consume (some "grp") .below .above 2 "a"
        ⟨"HomePage", none, 2, none, 5, some [("a", ⟨.left, 2⟩)]⟩ ⟨.left, 2⟩).1
      (by simp),
    (c5_override_record_and_consume (some "grp") .below .above 2 "a"
        ⟨"HomePage", none, 2, none, 5, some [("a", ⟨.left, 2⟩)]⟩ ⟨.left, 2⟩).2
      rfl rfl⟩

/-! ## Take-the-tour toggle stream (`TakeTheTourStore`) -/

/-- `distinctUntilChanged` over a boolean stream, after the first emission:
an element equal to the previously emitted value is dropped. -/
def dedupAfter (last : Bool) : List Bool → List Bool
  | [] => []
  | x :: xs => if x = last then dedupAfter last xs else x :: dedupAfter x xs

/-- `distinctUntilChanged` over a boolean stream: the first element is
always emitted, later ones only when they differ from the last emission. -/
def dedupConsecutive : List Bool → List Bool
  | [] => []
  | x :: xs => x :: dedupAfter x xs

/-- `toggleTourBtn$`: the `_toggleTourBtn` emissions piped through
`withLatestFrom(resizeObserver.observe$)`, `filter(width >= 1200)`,
`map(fst)` and `distinctUntilChanged()`.  An input event is one source
emission paired (by `withLatestFrom`) with the latest viewport width
observed at that moment. -/
def toggleTourBtnEmits (events : List (Bool × Rat)) : List Bool :=
  dedupConsecutive
    ((events.filter (fun e => decide ((1200 : Rat) ≤ e.2))).map Prod.fst)

theorem mem_of_mem_dedupAfter (x : Bool) :
    ∀ (last : Bool) (xs : List Bool), x ∈ dedupAfter last xs → x ∈ xs := by
  intro last xs
  induction xs generalizing last with
  | nil => intro h; simp [dedupAfter] at h
  | cons y ys ih =>
      intro h
      simp only [dedupAfter] at h
      by_cases hy : y = last
      · rw [if_pos hy] at h
        exact List.mem_cons_of_mem y (ih last h)
      · rw [if_neg hy] at h
        rcases List.mem_cons.mp h with h1 | h2
        · simp [h1]
        · exact List.mem_cons_of_mem y (ih y h2)

theorem mem_of_mem_dedupConsecutive (x : Bool) (xs : List Bool)
    (h : x ∈ dedupConsecutive xs) : x ∈ xs := by
  cases xs with
  | nil => simp [dedupConsecutive] at h
  | cons y ys =>
      simp only [dedupConsecutive] at h
      rcases List.mem_cons.mp h with h1 | h2
      · simp [h1]
      · exact List.mem_cons_of_mem y (mem_of_mem_dedupAfter x y ys h2)

/-- C8: the toggle stream emits a value only when the latest viewport width
observed at the corresponding toggle action is at least 1200 pixels — no
emission ever reaches subscribers from a toggle seen while the width was
below 1200. -/
theorem c8_toggle_gated_by_width (events : List (Bool × Rat)) (b : Bool)
    (hb : b ∈ toggleTourBtnEmits events) :
    ∃ w, (b, w) ∈ events ∧ (1200 : Rat) ≤ w := by
  have hb' := mem_of_mem_dedupConsecutive b _ hb
  obtain ⟨⟨eb, ew⟩, he, hfst⟩ := List.mem_map.mp hb'
  obtain ⟨hee, hw⟩ := List.mem_filter.mp he
  simp only at hfst
  subst hfst
  exact ⟨ew, hee, of_decide_eq_true (by simpa using hw)⟩

/-- C8 witness: a toggle observed at width 1250 does pass the gate. -/
theorem c8_witness :
    ∃ w, ((true, w) ∈ [((true : Bool), (1250 : Rat))]) ∧ (1200 : Rat) ≤ w :=
  c8_toggle_gated_by_width [(true, 1250)] true
    (by norm_num [toggleTourBtnEmits, dedupConsecutive, dedupAfter, List.filter])

/-! ## Scroll-end debouncing (`onScrollStop`) -/

/-- The default `throttleBy` delay of `onScrollStop`: 300 ms. -/
def onScrollStopDefaultThrottle : Rat := 300

/-- The emission times of the `onScrollStop` scroll listener for a sequence
of scroll-event times: each event clears the pending `setTimeout` — so an
event arriving within `throttleBy` of the previous one cancels that
emission — and schedules a new emission `throttleBy` later. -/
def debounceEmits (throttleBy : Rat) : List Rat → List Rat
  | [] => []
  | [t] => [t + throttleBy]
  | t :: t2 :: rest =>
      if t2 < t + throttleBy then debounceEmits throttleBy (t2 :: rest)
      else (t + throttleBy) :: debounceEmits throttleBy (t2 :: rest)

/-- C9: a burst of scroll events in which every event follows its
predecessor by less than the (default 300 ms) delay produces exactly one
emission, scheduled one delay after the last event of the burst. -/
theorem c9_burst_single_emission (t0 : Rat) (ts : List Rat)
    (hburst : List.Chain (fun a b => b < a + onScrollStopDefaultThrottle) t0 ts) :
    debounceEmits onScrollStopDefaultThrottle (t0 :: ts) =
      [ts.getLastD t0 + onScrollStopDefaultThrottle] := by
  revert hburst
  induction ts generalizing t0 with
  | nil => intro _; rfl
  | cons t1 rest ih =>
      intro hburst
      rcases List.chain_cons.mp hburst with ⟨h1, h2⟩
      simp only [debounceEmits, if_pos h1]
      rw [ih t1 h2, List.getLastD_cons]

/-- C9 witness: three scroll events at 0, 100 and 250 ms (each gap below
300 ms) debounce to the single emission at 550 ms. -/
theorem c9_witness :
    debounceEmits onScrollStopDefaultThrottle [0, 100, 250] =
      [List.getLastD [100, 250] 0 + onScrollStopDefaultThrottle] :=
  c9_burst_single_emission 0 [100, 250]
    (List.Chain.cons (by norm_num [onScrollStopDefaultThrottle])
      (List.Chain.cons (by norm_num [onScrollStopDefaultThrottle]) List.Chain.nil))
